import Mathlib

/-!
Shallow embedding of the incremental transaction indexer of
`shitcoincleaner-backend` (src/indexer.js, src/server.js, src/db.js) and
proofs about its behaviour.

The embedding models the per-cycle logic of `processNewTransactions`:
signature-window fetch, novelty filtering against `lastProcessedSignature`,
chunked detail fetch, interaction extraction and aggregation, the SQL merge
transaction, and the final checkpoint update; plus the `setInterval`
scheduler of `runIndexer` and the `GET /api/score/:walletAddress` handler
of the API server.

External effects (the Solana RPC node and the PostgreSQL client) are
represented by explicit oracles: the signature fetch and each chunked
detail fetch may fail (the thrown error reaching the outer `catch`), and
the merge transaction may fail at any statement (the thrown error reaching
the inner `catch`, which issues `ROLLBACK`).
-/

namespace ShitcoinCleaner

/-- Configuration constant of src/indexer.js line 16: five minutes in ms. -/
def CHECK_INTERVAL_MS : Nat := 5 * 60 * 1000

/-- Configuration constant of src/indexer.js line 17: detail-fetch batch size. -/
def BATCH_FETCH_SIZE : Nat := 20

/-- Configuration constant of src/indexer.js line 18: signature window limit. -/
def SIGNATURE_FETCH_LIMIT : Nat := 100

/-- A parsed instruction, retaining the only field the indexer inspects:
the program id it invokes (`ix.programId`). -/
structure Instruction where
  programId : String
deriving DecidableEq

/-- An entry of `tx.transaction.message.accountKeys`: a public key and its
`signer` flag. -/
structure AccountKey where
  pubkey : String
  signer : Bool
deriving DecidableEq

/-- The fields of `tx.transaction.message` that the indexer reads. -/
structure TxMessage where
  accountKeys : List AccountKey
  instructions : List Instruction
deriving DecidableEq

/-- The fields of `tx.meta` that the indexer reads; `err = none` models
`meta.err === null`, `err = some e` an on-ledger execution error object. -/
structure TxMeta where
  err : Option String
deriving DecidableEq

/-- One element of the `getParsedTransactions` response. Either field may be
absent (falsy), which the code guards with `tx.transaction && tx.meta`. -/
structure ParsedTx where
  transaction : Option TxMessage
  meta : Option TxMeta
deriving DecidableEq

/-- Interaction extractor: the body of the `for (const tx of transactions)`
loop in `processNewTransactions` (src/indexer.js lines 111-132). Returns the
wallet a transaction is counted toward, or `none` when the transaction does
not qualify. A whole-batch element may be `null` (`tx` falsy), the parsed
transaction or meta may be missing, the transaction may carry an execution
error, there may be no signer account, or no instruction may invoke the
target program; in each of those cases nothing is counted. -/
def attributedWallet (programId : String) (tx : Option ParsedTx) : Option String :=
  match tx with
  | none => none
  | some t =>
    match t.transaction, t.meta with
    | some msg, some meta =>
      if meta.err = none then
        match msg.accountKeys.find? (fun acc => acc.signer) with
        | some firstSignerAccount =>
          if msg.instructions.any (fun ix => ix.programId = programId) then
            some firstSignerAccount.pubkey
          else
            none
        | none => none
      else
        none
    | _, _ => none

/-- `walletInteractionCounts.set(w, (walletInteractionCounts.get(w) || 0) + 1)`
on a JS `Map` represented as an insertion-ordered association list: an
existing key is bumped in place, a new key is appended with count 1. -/
def bumpCount (w : String) : List (String × Nat) → List (String × Nat)
  | [] => [(w, 1)]
  | (k, v) :: rest =>
    if k = w then (k, v + 1) :: rest else (k, v) :: bumpCount w rest

/-- Aggregator: folds the extraction result of every fetched transaction of a
cycle into the `walletInteractionCounts` map (src/indexer.js lines 107-132). -/
def aggregate (programId : String) (txs : List (Option ParsedTx)) :
    List (String × Nat) :=
  txs.foldl
    (fun m tx =>
      match attributedWallet programId tx with
      | some w => bumpCount w m
      | none => m)
    []

/-- Novelty filter (src/indexer.js lines 79-89): with a checkpoint present,
`findIndex` locates it in the newest-first window and `slice(0, k)` keeps the
strictly newer prefix; a missing checkpoint, or one absent from the window,
keeps the whole window. -/
def novelSignatures (signaturesInfo : List String)
    (lastProcessedSignature : Option String) : List String :=
  match lastProcessedSignature with
  | some cp =>
    match signaturesInfo.findIdx? (fun s => s = cp) with
    | some k => signaturesInfo.take k
    | none => signaturesInfo
  | none => signaturesInfo

/-- The chunking of the detail-fetch loop
`for (let i = 0; i < n; i += BATCH_FETCH_SIZE)` with `slice(i, i + size)`,
written with an explicit fuel equal to the list length (the loop advances by
`size ≥ 1` each iteration, so `length` steps always suffice). -/
def chunksOfAux (size : Nat) : Nat → List α → List (List α)
  | 0, _ => []
  | _, [] => []
  | fuel + 1, l => l.take size :: chunksOfAux size fuel (l.drop size)

/-- The list of batches submitted to `getParsedTransactions`. -/
def chunksOf (size : Nat) (l : List α) : List (List α) :=
  chunksOfAux size l.length l

/-- Batch detail fetcher: issues one `getParsedTransactions` call per chunk,
sequentially; a thrown RPC error on any chunk propagates (to the outer
`catch` of `processNewTransactions`), aborting the whole phase. -/
def fetchDetails (getChunk : List String → Except Unit (List (Option ParsedTx))) :
    List (List String) → Except Unit (List (Option ParsedTx))
  | [] => .ok []
  | c :: rest => do
    let txs ← getChunk c
    let more ← fetchDetails getChunk rest
    pure (txs ++ more)

/-- The persisted `wallet_scores` table, reduced to the fields the indexer
and the score endpoint touch: `wallet_address` (unique key) and
`interaction_count`. -/
abbrev Scores := List (String × Nat)

/-- The `interaction_count` the table holds for a wallet, `0` when the wallet
has no row (the `rows.length > 0 ? rows[0].interaction_count : 0` convention
of the read path). -/
def getScore (w : String) (scores : Scores) : Nat :=
  ((scores.find? (fun p => p.1 = w)).map (fun p => p.2)).getD 0

/-- One `INSERT ... ON CONFLICT (wallet_address) DO UPDATE SET
interaction_count = interaction_count + $2` statement: an existing row is
incremented in place, otherwise a new row `(w, c)` is inserted. -/
def upsert (w : String) (c : Nat) : Scores → Scores
  | [] => [(w, c)]
  | (k, v) :: rest =>
    if k = w then (k, v + c) :: rest else (k, v) :: upsert w c rest

/-- All statements of a committed merge transaction applied in map order. -/
def applyDeltas (deltas : List (String × Nat)) (scores : Scores) : Scores :=
  deltas.foldl (fun sc d => upsert d.1 d.2 sc) scores

/-- Merge committer: the
`if (walletInteractionCounts.size > 0) { BEGIN ... COMMIT / ROLLBACK }`
block (src/indexer.js lines 137-159). `dbFailAt = some j` with
`j < deltas.length` models the `j`-th upsert statement throwing, in which
case the `catch` issues `ROLLBACK` and the table is unchanged.
Returns the resulting table and whether a storage transaction was opened. -/
def mergeStep (deltas : List (String × Nat)) (dbFailAt : Option Nat)
    (scores : Scores) : Scores × Bool :=
  if deltas.isEmpty then
    (scores, false)
  else
    match dbFailAt with
    | some j =>
      if j < deltas.length then (scores, true) else (applyDeltas deltas scores, true)
    | none => (applyDeltas deltas scores, true)

/-- The mutable state of one indexer process paired with the durable table:
`lastProcessedSignature` is the module-level in-memory variable of
src/indexer.js line 23, `scores` the PostgreSQL `wallet_scores` table. -/
structure IndexerState where
  lastProcessedSignature : Option String
  scores : Scores
deriving DecidableEq

/-- The external-world inputs of one `processNewTransactions` cycle. -/
structure RpcOracle where
  /-- Result of `getSignaturesForAddress` (newest-first signatures), or a
  thrown RPC error. -/
  sigs : Except Unit (List String)
  /-- Result of `getParsedTransactions` for one batch, or a thrown RPC
  error. -/
  getChunk : List String → Except Unit (List (Option ParsedTx))
  /-- Index of the merge-transaction statement that throws, if any. -/
  dbFailAt : Option Nat

/-- Outcome of one cycle: the resulting state, whether a storage transaction
was opened (`BEGIN` issued), and the delta map the cycle handed to the merge
step (empty when the cycle aborted or found nothing). -/
structure CycleResult where
  state : IndexerState
  txnOpened : Bool
  deltas : List (String × Nat)
deriving DecidableEq

/-- One run of `processNewTransactions` (src/indexer.js lines 52-172).
A thrown RPC error in the signature fetch or in any detail chunk reaches the
outer `catch`, which only logs: the state is unchanged. An empty window
returns early unchanged (the nested first-run assignment inside that branch
is unreachable, its guard contradicting `signaturesInfo.length === 0`).
An empty novel set fast-forwards the checkpoint to the newest fetched
signature. Otherwise details are fetched, counts aggregated, the merge step
run — and `lastProcessedSignature = newSignaturesToProcess[0].signature` is
then executed unconditionally, also when the merge transaction failed and
was rolled back. -/
def runCycle (programId : String) (o : RpcOracle) (st : IndexerState) :
    CycleResult :=
  match o.sigs with
  | .error _ => ⟨st, false, []⟩
  | .ok signaturesInfo =>
    if signaturesInfo.isEmpty then ⟨st, false, []⟩
    else
      let newSignaturesToProcess :=
        novelSignatures signaturesInfo st.lastProcessedSignature
      if newSignaturesToProcess.isEmpty then
        ⟨⟨signaturesInfo.head?, st.scores⟩, false, []⟩
      else
        match fetchDetails o.getChunk
            (chunksOf BATCH_FETCH_SIZE newSignaturesToProcess) with
        | .error _ => ⟨st, false, []⟩
        | .ok txs =>
          let deltas := aggregate programId txs
          let merged := mergeStep deltas o.dbFailAt st.scores
          ⟨⟨newSignaturesToProcess.head?, merged.1⟩, merged.2, deltas⟩

/-- A sequence of cycles, one per scheduler tick. -/
def runCycles (programId : String) (os : List RpcOracle) (st : IndexerState) :
    IndexerState :=
  os.foldl (fun s o => (runCycle programId o s).state) st

/-- State of a freshly started process over a durable table `db`:
`let lastProcessedSignature = null` (src/indexer.js line 23), and
`runIndexer` performs no persisted-state loading — the call to
`getLastProcessedSignatureFromDB` is commented out (src/indexer.js lines
176-178), and that function returns `null` in any case. -/
def startProcess (db : Scores) : IndexerState :=
  ⟨none, db⟩

/-- A process restart: the PostgreSQL table survives, the module-level
variable does not. -/
def restart (st : IndexerState) : IndexerState :=
  startProcess st.scores

/-- Start time (in ms) of the k-th cycle under `runIndexer`
(src/indexer.js lines 174-182): `await processNewTransactions()` starts
cycle 0 at time 0 and is awaited; `setInterval(processNewTransactions,
CHECK_INTERVAL_MS)` is armed when cycle 0 completes (after `d0` ms) and its
k-th tick fires a fixed interval apart, invoking the async callback without
awaiting the completion of earlier invocations. -/
def cycleStart (T d0 k : Nat) : Nat :=
  if k = 0 then 0 else d0 + k * T

/-- Cycle `k` (with duration `dur k`) is still running when cycle `k + 1`
starts. -/
def cyclesOverlap (T d0 : Nat) (dur : Nat → Nat) (k : Nat) : Prop :=
  cycleStart T d0 (k + 1) < cycleStart T d0 k + dur k

/-- Response of the `GET /api/score/:walletAddress` handler reduced to what
the claims inspect: HTTP status, the `interactionCount` field of a success
body, and whether the handler issued the storage query. -/
structure ScoreResponse where
  status : Nat
  interactionCount : Option Nat
  dbQueried : Bool
deriving DecidableEq

/-- The `GET /api/score/:walletAddress` handler (src/server.js lines 52-83).
`valid` is the verdict of `isValidSolanaAddress` (a try/catch around the
external `new PublicKey(address)` base58 check); `dbOk` models whether the
`SELECT interaction_count FROM wallet_scores WHERE wallet_address = $1`
query succeeds. A falsy (empty) parameter or an invalid address is rejected
with 400 before any query; a failing query yields 500; otherwise 200 with
the row's count, defaulting to 0 when no row matches. -/
def getScoreHandler (walletAddress : String) (valid : Bool) (db : Scores)
    (dbOk : Bool) : ScoreResponse :=
  if walletAddress = "" then ⟨400, none, false⟩
  else if valid = false then ⟨400, none, false⟩
  else if dbOk then ⟨200, some (getScore walletAddress db), true⟩
  else ⟨500, none, true⟩

/-! Helper lemmas about the novelty filter. -/

lemma findIdx?_of_get? (cp : String) (w : List String) (k : Nat)
    (hnd : w.Nodup) (hk : w.get? k = some cp) :
    w.findIdx? (fun s => s = cp) = some k := by
  induction w generalizing k with
  | nil => simp at hk
  | cons a t ih =>
    cases k with
    | zero =>
      simp only [List.get?] at hk
      injection hk with hk
      subst hk
      simp [List.findIdx?_cons]
    | succ k =>
      simp only [List.get?] at hk
      have hmem : cp ∈ t := List.get?_mem hk
      have hne : a ≠ cp := by
        intro h
        exact (List.nodup_cons.mp hnd).1 (h ▸ hmem)
      have ht : t.findIdx? (fun s => s = cp) = some k :=
        ih k (List.nodup_cons.mp hnd).2 hk
      simp [List.findIdx?_cons, hne, List.findIdx?_succ, ht]

lemma findIdx?_of_not_mem (cp : String) (w : List String) (h : cp ∉ w) :
    w.findIdx? (fun s => s = cp) = none := by
  rw [List.findIdx?_eq_none_iff]
  intro x hx
  simp only [decide_eq_false_iff_not]
  rintro rfl
  exact h hx

lemma novelSignatures_nil (cp : Option String) : novelSignatures [] cp = [] := by
  cases cp with
  | none => rfl
  | some c => simp [novelSignatures, List.findIdx?_nil]

/-- C4: the novelty filter returns exactly the strictly-newer prefix of the
newest-first window: with the checkpoint at index `k` of a duplicate-free
window the result is the first `k` entries; with the checkpoint absent from
the window, or no checkpoint at all, the result is the whole window; and on
the spec's example window `[s5,s4,s3,s2,s1]` with checkpoint `s3` the result
is `[s5,s4]`. -/
theorem C4_novelty_filter :
    (∀ (w : List String) (cp : String) (k : Nat), w.Nodup → w.get? k = some cp →
        novelSignatures w (some cp) = w.take k) ∧
    (∀ (w : List String) (cp : String), cp ∉ w →
        novelSignatures w (some cp) = w) ∧
    (∀ w : List String, novelSignatures w none = w) ∧
    novelSignatures ["s5", "s4", "s3", "s2", "s1"] (some "s3") = ["s5", "s4"] := by
  refine ⟨?_, ?_, fun w => rfl, by decide⟩
  · intro w cp k hnd hk
    simp [novelSignatures, findIdx?_of_get? cp w k hnd hk]
  · intro w cp h
    simp [novelSignatures, findIdx?_of_not_mem cp w h]

/-- C4 witness: the filter theorem applied to the spec's concrete example
window and to a checkpoint that is absent from the window. -/
theorem C4_novelty_filter_witness :
    novelSignatures ["s5", "s4", "s3", "s2", "s1"] (some "s3") = ["s5", "s4"] ∧
    novelSignatures ["s2", "s1"] (some "s9") = ["s2", "s1"] :=
  ⟨C4_novelty_filter.1 ["s5", "s4", "s3", "s2", "s1"] "s3" 2 (by decide) (by decide),
   C4_novelty_filter.2.1 ["s2", "s1"] "s9" (by decide)⟩

/-- C5: the extractor counts a transaction toward wallet `w` iff the body is
present, it carries no on-ledger execution error, the first signer account
exists and has public key `w`, and some instruction invokes the target
program; consequently a missing body, an erroring transaction, or a
signerless transaction contributes nothing (the extractor returns `none`,
no error is raised). -/
theorem C5_extractor :
    (∀ (pid : String) (tx : Option ParsedTx) (w : String),
      attributedWallet pid tx = some w ↔
        ∃ t msg meta, tx = some t ∧ t.transaction = some msg ∧
          t.meta = some meta ∧ meta.err = none ∧
          (∃ a, msg.accountKeys.find? (fun acc => acc.signer) = some a ∧
            a.pubkey = w) ∧
          msg.instructions.any (fun ix => ix.programId = pid) = true) ∧
    (∀ pid : String, attributedWallet pid none = none) ∧
    (∀ (pid : String) (t : ParsedTx) (msg : TxMessage) (meta : TxMeta)
        (e : String), t.transaction = some msg → t.meta = some meta →
        meta.err = some e → attributedWallet pid (some t) = none) ∧
    (∀ (pid : String) (t : ParsedTx) (msg : TxMessage),
        t.transaction = some msg →
        msg.accountKeys.find? (fun acc => acc.signer) = none →
        attributedWallet pid (some t) = none) := by
  refine ⟨?_, fun pid => rfl, ?_, ?_⟩
  · intro pid tx w
    constructor
    · intro h
      cases tx with
      | none => simp [attributedWallet] at h
      | some t =>
        cases htr : t.transaction with
        | none => simp [attributedWallet, htr] at h
        | some msg =>
          cases hm : t.meta with
          | none => simp [attributedWallet, htr, hm] at h
          | some meta =>
            simp only [attributedWallet, htr, hm] at h
            by_cases herr : meta.err = none
            · rw [if_pos herr] at h
              cases hfind : msg.accountKeys.find? (fun acc => acc.signer) with
              | none => rw [hfind] at h; exact absurd h (by simp)
              | some a =>
                rw [hfind] at h
                dsimp only at h
                by_cases hinv :
                    msg.instructions.any (fun ix => ix.programId = pid) = true
                · rw [if_pos hinv] at h
                  injection h with h
                  exact ⟨t, msg, meta, rfl, htr, hm, herr, ⟨a, hfind, h⟩, hinv⟩
                · rw [if_neg hinv] at h
                  exact absurd h (by simp)
            · rw [if_neg herr] at h
              exact absurd h (by simp)
    · rintro ⟨t, msg, meta, rfl, htr, hm, herr, ⟨a, hfind, rfl⟩, hinv⟩
      simp [attributedWallet, htr, hm, herr, hfind, hinv]
  · intro pid t msg meta e htr hm herr
    simp [attributedWallet, htr, hm, herr]
  · intro pid t msg htr hfind
    cases hm : t.meta with
    | none => simp [attributedWallet, htr, hm]
    | some meta =>
      by_cases herr : meta.err = none
      · simp [attributedWallet, htr, hm, herr, hfind]
      · simp [attributedWallet, htr, hm, herr]

/-- C5 witness: the characterization applied at concrete transactions — a
qualifying one is counted toward its first signer; one that invokes the
program but carries an execution error is not counted; a signerless one is
not counted. -/
theorem C5_extractor_witness :
    attributedWallet "P" (some ⟨some ⟨[⟨"W1", true⟩], [⟨"P"⟩]⟩, some ⟨none⟩⟩) =
      some "W1" ∧
    attributedWallet "P"
      (some ⟨some ⟨[⟨"W1", true⟩], [⟨"P"⟩]⟩, some ⟨some "InstructionError"⟩⟩) =
      none ∧
    attributedWallet "P" (some ⟨some ⟨[⟨"W1", false⟩], [⟨"P"⟩]⟩, some ⟨none⟩⟩) =
      none :=
  ⟨(C5_extractor.1 "P" _ "W1").mpr
      ⟨_, _, _, rfl, rfl, rfl, rfl, ⟨⟨"W1", true⟩, by decide, rfl⟩, by decide⟩,
   C5_extractor.2.2.1 "P" _ ⟨[⟨"W1", true⟩], [⟨"P"⟩]⟩ ⟨some "InstructionError"⟩
      "InstructionError" rfl rfl rfl,
   C5_extractor.2.2.2 "P" _ ⟨[⟨"W1", false⟩], [⟨"P"⟩]⟩ rfl (by decide)⟩

/-! Helper lemmas about the merge step and the whole cycle. -/

lemma mergeStep_fst_cases (deltas : List (String × Nat)) (f : Option Nat)
    (s : Scores) :
    (mergeStep deltas f s).1 = s ∨ (mergeStep deltas f s).1 = applyDeltas deltas s := by
  unfold mergeStep
  split
  · exact Or.inl rfl
  · cases f with
    | none => exact Or.inr rfl
    | some j =>
      by_cases hj : j < deltas.length
      · simp [hj]
      · simp [hj]

lemma runCycle_scores_cases (pid : String) (o : RpcOracle) (st : IndexerState) :
    (runCycle pid o st).state.scores = st.scores ∨
    (runCycle pid o st).state.scores =
      applyDeltas (runCycle pid o st).deltas st.scores := by
  unfold runCycle
  cases o.sigs with
  | error e => exact Or.inl rfl
  | ok sigsInfo =>
    dsimp only
    split
    · exact Or.inl rfl
    · split
      · exact Or.inl rfl
      · split
        · exact Or.inl rfl
        · exact mergeStep_fst_cases _ _ _

lemma fetchDetails_error_of_mem
    (g : List String → Except Unit (List (Option ParsedTx)))
    (cs : List (List String)) (c : List String)
    (hc : c ∈ cs) (he : g c = .error ()) :
    fetchDetails g cs = .error () := by
  induction cs with
  | nil => exact absurd hc (List.not_mem_nil c)
  | cons d rest ih =>
    rcases List.mem_cons.mp hc with h | h
    · subst h
      simp only [fetchDetails, he]
      rfl
    · cases hd : g d with
      | error e =>
        cases e
        simp only [fetchDetails, hd]
        rfl
      | ok txs =>
        simp only [fetchDetails, hd, ih h]
        rfl

/-- C6: the merge committer is all-or-nothing: an empty delta map opens no
storage transaction and leaves the table unchanged; a statement failing
mid-transaction rolls the whole transaction back, leaving the table
unchanged; and consequently any cycle's resulting table is either the prior
table or the prior table with the cycle's full delta map applied — never a
partial subset. -/
theorem C6_merge_all_or_nothing :
    (∀ (f : Option Nat) (scores : Scores), mergeStep [] f scores = (scores, false)) ∧
    (∀ (deltas : List (String × Nat)) (j : Nat) (scores : Scores),
        j < deltas.length → mergeStep deltas (some j) scores = (scores, true)) ∧
    (∀ (pid : String) (o : RpcOracle) (st : IndexerState),
        (runCycle pid o st).state.scores = st.scores ∨
        (runCycle pid o st).state.scores =
          applyDeltas (runCycle pid o st).deltas st.scores) := by
  refine ⟨fun f scores => rfl, ?_, runCycle_scores_cases⟩
  intro deltas j scores hj
  have hne : deltas.isEmpty = false := by
    cases deltas
    · simp at hj
    · rfl
  simp [mergeStep, hne, hj]

/-- C6 witness: the merge theorem applied to a concrete empty map and to a
concrete two-statement transaction whose second statement fails. -/
theorem C6_merge_all_or_nothing_witness :
    mergeStep [] (some 0) [("W1", 7)] = ([("W1", 7)], false) ∧
    mergeStep [("W1", 1), ("W2", 2)] (some 1) [("W1", 7)] = ([("W1", 7)], true) :=
  ⟨C6_merge_all_or_nothing.1 (some 0) [("W1", 7)],
   C6_merge_all_or_nothing.2.1 [("W1", 1), ("W2", 2)] 1 [("W1", 7)] (by decide)⟩

/-- C8: when the fetch succeeds with a non-empty window whose novelty filter
yields nothing, the cycle fast-forwards: the checkpoint becomes the newest
fetched signature, the score table is untouched, and no storage transaction
is opened. -/
theorem C8_fast_forward (pid : String) (o : RpcOracle) (st : IndexerState)
    (sigsInfo : List String) (hs : o.sigs = .ok sigsInfo) (hne : sigsInfo ≠ [])
    (hnov : novelSignatures sigsInfo st.lastProcessedSignature = []) :
    (runCycle pid o st).state.lastProcessedSignature = sigsInfo.head? ∧
    (runCycle pid o st).state.scores = st.scores ∧
    (runCycle pid o st).txnOpened = false := by
  unfold runCycle
  rw [hs]
  dsimp only
  simp [List.isEmpty_iff, hne, hnov]

/-- C8 witness: the fast-forward theorem applied to a concrete cycle whose
window consists exactly of the checkpointed signature. -/
theorem C8_fast_forward_witness :
    (runCycle "P" ⟨.ok ["s1"], fun _ => .ok [], none⟩
        ⟨some "s1", [("W1", 2)]⟩).state.lastProcessedSignature = some "s1" ∧
    (runCycle "P" ⟨.ok ["s1"], fun _ => .ok [], none⟩
        ⟨some "s1", [("W1", 2)]⟩).state.scores = [("W1", 2)] ∧
    (runCycle "P" ⟨.ok ["s1"], fun _ => .ok [], none⟩
        ⟨some "s1", [("W1", 2)]⟩).txnOpened = false :=
  C8_fast_forward "P" ⟨.ok ["s1"], fun _ => .ok [], none⟩ ⟨some "s1", [("W1", 2)]⟩
    ["s1"] rfl (by decide) (by decide)

/-- C7: an RPC error on any detail chunk aborts the cycle with no side
effects: the checkpoint and the score table are unchanged, no storage
transaction is opened and no deltas are produced. -/
theorem C7_rpc_error_aborts (pid : String) (o : RpcOracle) (st : IndexerState)
    (sigsInfo : List String) (hs : o.sigs = .ok sigsInfo)
    (hfail : ∃ c ∈ chunksOf BATCH_FETCH_SIZE
        (novelSignatures sigsInfo st.lastProcessedSignature),
        o.getChunk c = .error ()) :
    runCycle pid o st = ⟨st, false, []⟩ := by
  obtain ⟨c, hc, he⟩ := hfail
  have hnov : novelSignatures sigsInfo st.lastProcessedSignature ≠ [] := by
    intro h
    rw [h] at hc
    exact absurd hc (by simp [chunksOf, chunksOfAux])
  have hne : sigsInfo ≠ [] := by
    intro h
    subst h
    exact hnov (novelSignatures_nil st.lastProcessedSignature)
  have hfd := fetchDetails_error_of_mem o.getChunk _ c hc he
  unfold runCycle
  rw [hs]
  dsimp only
  simp [List.isEmpty_iff, hne, hnov, hfd]

/-- C7 witness: the abort theorem applied to a concrete cycle whose only
detail chunk fails. -/
theorem C7_rpc_error_aborts_witness :
    runCycle "P" ⟨.ok ["s2", "s1"], fun _ => .error (), none⟩
        ⟨none, [("W1", 3)]⟩ =
      ⟨⟨none, [("W1", 3)]⟩, false, []⟩ :=
  C7_rpc_error_aborts "P" ⟨.ok ["s2", "s1"], fun _ => .error (), none⟩
    ⟨none, [("W1", 3)]⟩ ["s2", "s1"] rfl ⟨["s2", "s1"], by decide, rfl⟩

/-- A transaction that qualifies for counting: no execution error, first
signer `W1`, one instruction invoking program `P`. -/
def txQualifying : ParsedTx :=
  ⟨some ⟨[⟨"W1", true⟩], [⟨"P"⟩]⟩, some ⟨none⟩⟩

/-- A cycle's external inputs in which the merge transaction's first
statement fails. -/
def oracleCommitFails : RpcOracle :=
  ⟨.ok ["s1"], fun _ => .ok [some txQualifying], some 0⟩

/-- The same external inputs with a succeeding merge transaction. -/
def oracleCommitOk : RpcOracle :=
  ⟨.ok ["s1"], fun _ => .ok [some txQualifying], none⟩

/-- C1 counterexample: starting from an absent checkpoint and an empty
table, a cycle that aggregates the delta `{W1 ↦ 1}` and whose storage commit
fails leaves the table empty (the transaction is rolled back) yet still
advances the checkpoint to `s1` — `lastProcessedSignature = newSignatures
ToProcess[0].signature` runs after the swallowed `catch (dbError)` — and a
subsequent healthy cycle over the same window fast-forwards instead of
retrying, so the increment is permanently lost. -/
theorem C1_counterexample :
    (runCycle "P" oracleCommitFails ⟨none, []⟩).deltas = [("W1", 1)] ∧
    (runCycle "P" oracleCommitFails ⟨none, []⟩).state.scores = [] ∧
    (runCycle "P" oracleCommitFails ⟨none, []⟩).state.lastProcessedSignature =
      some "s1" ∧
    (runCycle "P" oracleCommitOk
        (runCycle "P" oracleCommitFails ⟨none, []⟩).state).state.scores = [] :=
  ⟨rfl, rfl, rfl, rfl⟩

/-- C1 amended: when the signature fetch and every detail chunk succeed and
the novel set is non-empty, the checkpoint is advanced to the newest novel
signature at the end of the cycle regardless of the merge outcome; in
particular when a merge statement fails the deltas are rolled back (the
table is unchanged) but the checkpoint still advances, so the next cycle
does not retry the lost work. -/
theorem C1_commit_failure_still_advances (pid : String) (o : RpcOracle)
    (st : IndexerState) (sigsInfo : List String)
    (txs : List (Option ParsedTx)) (j : Nat)
    (hs : o.sigs = .ok sigsInfo)
    (hnov : novelSignatures sigsInfo st.lastProcessedSignature ≠ [])
    (hf : fetchDetails o.getChunk (chunksOf BATCH_FETCH_SIZE
        (novelSignatures sigsInfo st.lastProcessedSignature)) = .ok txs)
    (hfail : o.dbFailAt = some j) (hj : j < (aggregate pid txs).length) :
    (runCycle pid o st).state.scores = st.scores ∧
    (runCycle pid o st).state.lastProcessedSignature =
      (novelSignatures sigsInfo st.lastProcessedSignature).head? := by
  have hne : sigsInfo ≠ [] := by
    intro h
    subst h
    exact hnov (novelSignatures_nil st.lastProcessedSignature)
  have hagne : aggregate pid txs ≠ [] := by
    intro h
    rw [h] at hj
    simp at hj
  unfold runCycle
  rw [hs]
  dsimp only
  simp [List.isEmpty_iff, hne, hnov, hf, mergeStep, hagne, hfail, hj]

/-- C1 amended witness: the theorem applied to the concrete failing-commit
cycle. -/
theorem C1_commit_failure_still_advances_witness :
    (runCycle "P" oracleCommitFails ⟨none, []⟩).state.scores = [] ∧
    (runCycle "P" oracleCommitFails ⟨none, []⟩).state.lastProcessedSignature =
      some "s1" :=
  C1_commit_failure_still_advances "P" oracleCommitFails ⟨none, []⟩ ["s1"]
    [some txQualifying] 0 rfl (by decide) rfl rfl (by decide)

/-- C2 counterexample: a successful cycle leaves checkpoint `s1` and the row
`(W1, 1)`; after a process restart the durable table survives but the
checkpoint — the in-memory `lastProcessedSignature` variable — is reset to
absent, so the indexer does not resume from the previously established
checkpoint. -/
theorem C2_counterexample :
    (runCycle "P" oracleCommitOk ⟨none, []⟩).state.lastProcessedSignature =
      some "s1" ∧
    (runCycle "P" oracleCommitOk ⟨none, []⟩).state.scores = [("W1", 1)] ∧
    (restart (runCycle "P" oracleCommitOk ⟨none, []⟩).state).lastProcessedSignature =
      none ∧
    (restart (runCycle "P" oracleCommitOk ⟨none, []⟩).state).lastProcessedSignature ≠
      (runCycle "P" oracleCommitOk ⟨none, []⟩).state.lastProcessedSignature :=
  ⟨rfl, rfl, rfl, by decide⟩

/-- C2 amended: the checkpoint lives only in the process-memory variable
`lastProcessedSignature`; a freshly started process always begins with an
absent checkpoint over whatever durable table exists (the storage load is
stubbed out), so after any cycle and a restart the checkpoint is absent
while the score table persists. -/
theorem C2_checkpoint_not_durable (pid : String) (o : RpcOracle)
    (st : IndexerState) :
    (restart (runCycle pid o st).state).lastProcessedSignature = none ∧
    (restart (runCycle pid o st).state).scores = (runCycle pid o st).state.scores ∧
    startProcess st.scores = ⟨none, st.scores⟩ :=
  ⟨rfl, rfl, rfl⟩

/-! Helper lemmas for monotonicity of the persisted counters. -/

lemma getScore_cons (w k : String) (v : Nat) (rest : Scores) :
    getScore w ((k, v) :: rest) = if k = w then v else getScore w rest := by
  by_cases h : k = w
  · simp [getScore, List.find?_cons, h]
  · simp [getScore, List.find?_cons, h]

lemma getScore_upsert_le (w a : String) (c : Nat) (s : Scores) :
    getScore w s ≤ getScore w (upsert a c s) := by
  induction s with
  | nil =>
    simp only [upsert, getScore_cons]
    by_cases h : a = w
    · simp [h, getScore]
    · simp [h, getScore]
  | cons p rest ih =>
    obtain ⟨k, v⟩ := p
    by_cases hka : k = a
    · simp only [upsert, if_pos hka, getScore_cons]
      by_cases hkw : k = w
      · rw [if_pos hkw, if_pos hkw]
        omega
      · rw [if_neg hkw, if_neg hkw]
    · simp only [upsert, if_neg hka, getScore_cons]
      by_cases hkw : k = w
      · rw [if_pos hkw, if_pos hkw]
      · rw [if_neg hkw, if_neg hkw]
        exact ih

lemma getScore_applyDeltas_le (w : String) (deltas : List (String × Nat))
    (s : Scores) :
    getScore w s ≤ getScore w (applyDeltas deltas s) := by
  induction deltas generalizing s with
  | nil => exact le_refl _
  | cons d rest ih =>
    exact le_trans (getScore_upsert_le w d.1 d.2 s) (ih (upsert d.1 d.2 s))

lemma getScore_runCycle_le (pid : String) (o : RpcOracle) (st : IndexerState)
    (w : String) :
    getScore w st.scores ≤ getScore w (runCycle pid o st).state.scores := by
  rcases runCycle_scores_cases pid o st with h | h
  · rw [h]
  · rw [h]
    exact getScore_applyDeltas_le w (runCycle pid o st).deltas st.scores

lemma bumpCount_pos (w : String) (m : List (String × Nat))
    (hm : ∀ p ∈ m, 1 ≤ p.2) : ∀ p ∈ bumpCount w m, 1 ≤ p.2 := by
  induction m with
  | nil =>
    intro p hp
    simp only [bumpCount, List.mem_singleton] at hp
    subst hp
    exact le_refl 1
  | cons q rest ih =>
    obtain ⟨k, v⟩ := q
    intro p hp
    by_cases hk : k = w
    · rw [bumpCount, if_pos hk] at hp
      rcases List.mem_cons.mp hp with h | h
      · subst h
        exact Nat.le_succ_of_le (hm (k, v) (List.mem_cons_self _ _))
      · exact hm p (List.mem_cons_of_mem _ h)
    · rw [bumpCount, if_neg hk] at hp
      rcases List.mem_cons.mp hp with h | h
      · subst h
        exact hm (k, v) (List.mem_cons_self _ _)
      · exact ih (fun q hq => hm q (List.mem_cons_of_mem _ hq)) p h

lemma aggregate_pos (pid : String) (txs : List (Option ParsedTx)) :
    ∀ p ∈ aggregate pid txs, 1 ≤ p.2 := by
  suffices h : ∀ (m : List (String × Nat)), (∀ p ∈ m, 1 ≤ p.2) →
      ∀ p ∈ txs.foldl
        (fun m tx =>
          match attributedWallet pid tx with
          | some w => bumpCount w m
          | none => m)
        m, 1 ≤ p.2 by
    exact h [] (by simp)
  induction txs with
  | nil => exact fun m hm => hm
  | cons tx rest ih =>
    intro m hm
    simp only [List.foldl_cons]
    cases htx : attributedWallet pid tx with
    | none => exact ih m hm
    | some w => exact ih (bumpCount w m) (bumpCount_pos w m hm)

/-- C9: the indexer only ever writes positive increments — every entry of a
cycle's aggregated delta map has count at least 1 — and applying any number
of cycles never decreases any wallet's persisted interaction count. -/
theorem C9_monotonicity :
    (∀ (pid : String) (txs : List (Option ParsedTx)) (p : String × Nat),
        p ∈ aggregate pid txs → 1 ≤ p.2) ∧
    (∀ (pid : String) (os : List RpcOracle) (st : IndexerState) (w : String),
        getScore w st.scores ≤ getScore w (runCycles pid os st).scores) := by
  constructor
  · exact fun pid txs p hp => aggregate_pos pid txs p hp
  · intro pid os st w
    induction os generalizing st with
    | nil => exact le_refl _
    | cons o rest ih =>
      exact le_trans (getScore_runCycle_le pid o st w) (ih (runCycle pid o st).state)

/-- C9 witness: the aggregated delta of the concrete qualifying transaction
is positive, and a concrete two-cycle run leaves the concrete wallet's count
no smaller than before. -/
theorem C9_monotonicity_witness :
    1 ≤ (("W1", 1) : String × Nat).2 ∧
    getScore "W1" ([("W1", 4)] : Scores) ≤
      getScore "W1" (runCycles "P" [oracleCommitOk, oracleCommitFails]
        ⟨none, [("W1", 4)]⟩).scores :=
  ⟨C9_monotonicity.1 "P" [some txQualifying] ("W1", 1) (by decide),
   C9_monotonicity.2 "P" [oracleCommitOk, oracleCommitFails] ⟨none, [("W1", 4)]⟩ "W1"⟩

/-- C3 counterexample: with the source's five-minute interval, a first cycle
of one second and a second cycle lasting ten minutes, the third cycle starts
while the second is still running — the `setInterval` timer fires on
schedule without awaiting the async callback, so cycles overlap. -/
theorem C3_counterexample :
    cyclesOverlap CHECK_INTERVAL_MS 1000
      (fun k => if k = 1 then 2 * CHECK_INTERVAL_MS else 1) 1 := by
  unfold cyclesOverlap
  decide

/-- C3 amended: the scheduler runs cycle 0 immediately at process start and
awaits it; once it completes after `d0` ms, `setInterval` fires at a fixed
cadence of one interval between consecutive later cycle starts, without
awaiting completion of the previous invocation — so whenever a later cycle's
duration exceeds the interval, it is still running when the next cycle
starts. -/
theorem C3_scheduler_no_await (T d0 : Nat) (dur : Nat → Nat) :
    cycleStart T d0 0 = 0 ∧
    (∀ k : Nat, cycleStart T d0 (k + 2) = cycleStart T d0 (k + 1) + T) ∧
    (∀ k : Nat, T < dur (k + 1) → cyclesOverlap T d0 dur (k + 1)) := by
  have hmul : ∀ k : Nat, (k + 2) * T = (k + 1) * T + T := by
    intro k
    ring
  refine ⟨rfl, ?_, ?_⟩
  · intro k
    simp only [cycleStart, Nat.succ_ne_zero, if_false, hmul k]
    omega
  · intro k h
    unfold cyclesOverlap
    simp only [cycleStart, Nat.succ_ne_zero, if_false, hmul k]
    omega

/-- C3 witness: the scheduler theorem applied at the source's interval with
a second cycle one millisecond longer than the interval. -/
theorem C3_scheduler_no_await_witness :
    cyclesOverlap CHECK_INTERVAL_MS 0 (fun _ => CHECK_INTERVAL_MS + 1) 1 :=
  (C3_scheduler_no_await CHECK_INTERVAL_MS 0 (fun _ => CHECK_INTERVAL_MS + 1)).2.2
    0 (by decide)

/-- C10: a non-empty, well-formed wallet address with no row in
`wallet_scores` gets status 200 with `interactionCount = 0` from a working
database, while a malformed address gets status 400 with no storage query
issued. -/
theorem C10_score_endpoint :
    (∀ (w : String) (db : Scores), w ≠ "" →
        db.find? (fun p => p.1 = w) = none →
        getScoreHandler w true db true = ⟨200, some 0, true⟩) ∧
    (∀ (w : String) (db : Scores) (dbOk : Bool),
        getScoreHandler w false db dbOk = ⟨400, none, false⟩) := by
  constructor
  · intro w db hw hfind
    have hz : getScore w db = 0 := by simp [getScore, hfind]
    simp [getScoreHandler, hw, hz]
  · intro w db dbOk
    by_cases hw : w = ""
    · simp [getScoreHandler, hw]
    · simp [getScoreHandler, hw]

/-- C10 witness: the endpoint theorem applied to a concrete unknown wallet
over a concrete one-row table, and to a concrete malformed address. -/
theorem C10_score_endpoint_witness :
    getScoreHandler "UnknownWallet11111111111111111111" true [("OtherWallet", 5)]
        true = ⟨200, some 0, true⟩ ∧
    getScoreHandler "not-base58" false [("OtherWallet", 5)] true =
      ⟨400, none, false⟩ :=
  ⟨C10_score_endpoint.1 "UnknownWallet11111111111111111111" [("OtherWallet", 5)]
      (by decide) (by decide),
   C10_score_endpoint.2 "not-base58" [("OtherWallet", 5)] true⟩

end ShitcoinCleaner
